import Mathlib

/-!
Verification development for the grothendieck-ocr repository.

This file gives a shallow embedding, in Lean, of the decision logic of the
repository: the retry controller of `analyze.py` (`transcribe_with_retry`),
and the batch runner, progress store and result bookkeeping of
`transcribe.py` (`transcribe`, `load_progress`, `save_progress`,
`transcribe_page`, `save_results`), together with the model registry of
`config.py` and the client wrappers of `models/gemini.py` and
`models/claude.py`.

Modelling conventions:
- External collaborators are parameters: PDF rasterization is a value of type
  `Except String Nat` attached to each document (a fault message, or the page
  count, the pages being numbered 1..n as in `pdf_to_images`); the network
  call of a transcription client is a `TResult` supplied by a function
  parameter (the client wrapper code around that call is embedded).
- Python dicts of string keys are association lists with first-match lookup
  and in-place overwrite on insert, matching dict semantics for the
  operations the code performs.
- `datetime.now()` is a logical clock: a natural number threaded through the
  run and incremented at each call.
- `time.sleep` has no observable effect on the state; the retry controller
  records the sequence of the wait durations it would sleep.
- Python floats for wait durations are modelled as exact rationals.
- A raised Python exception is the `Except.error` branch carrying `str(e)`.
-/

/-- A per-page transcription outcome, the tagged shape of the dicts returned
by `transcribe_with_gemini` and `transcribe_with_claude`: either
`status = success` with a transcription, or `status = error` with a message. -/
inductive TResult where
  | success (transcription : String) (model : String) (provider : String)
  | error (msg : String) (model : String) (provider : String)
  deriving DecidableEq, Repr

/-- Does the first character list occur at the head of the second one. -/
def startsWithChars : List Char → List Char → Bool
  | [], _ => true
  | _ :: _, [] => false
  | n :: ns, h :: hs => n = h && startsWithChars ns hs

/-- Does the first character list occur anywhere inside the second one. -/
def containsChars (ns : List Char) : List Char → Bool
  | [] => startsWithChars ns []
  | c :: cs => startsWithChars ns (c :: cs) || containsChars ns cs

/-- Python substring test `needle in hay`. -/
def strContains (needle hay : String) : Bool :=
  containsChars needle.toList hay.toList

/-- The rate-limit signature test of `analyze.py` line 44:
`"429" in error_msg or "RESOURCE_EXHAUSTED" in error_msg`. -/
def isRateLimited (msg : String) : Bool :=
  strContains "429" msg || strContains "RESOURCE_EXHAUSTED" msg

/-- Match a literal character sequence at the head of the input, returning
the remainder on success. -/
def dropLit : List Char → List Char → Option (List Char)
  | [], cs => some cs
  | _, [] => none
  | p :: ps, c :: cs => if c = p then dropLit ps cs else none

/-- Match the regex fragment `(\d+\.?\d*)s` at the head of the input and
return the characters of the captured group. The star and plus are greedy;
no backtracking can succeed for this pattern, so greedy matching is exact. -/
def matchRetryNum (cs : List Char) : Option (List Char) :=
  let d1 := cs.takeWhile Char.isDigit
  let rest1 := cs.dropWhile Char.isDigit
  if d1 = [] then none
  else
    match rest1 with
    | '.' :: rest2 =>
      let d2 := rest2.takeWhile Char.isDigit
      match rest2.dropWhile Char.isDigit with
      | 's' :: _ => some (d1 ++ '.' :: d2)
      | _ => none
    | 's' :: _ => some d1
    | _ => none

/-- Leftmost search for the regex `retry in (\d+\.?\d*)s` of `analyze.py`
line 46, over an already lowercased character list; returns the captured
group. -/
def scanRetry : List Char → Option (List Char)
  | [] => none
  | c :: cs =>
    match dropLit ("retry in ".toList) (c :: cs) with
    | some rest =>
      match matchRetryNum rest with
      | some g => some g
      | none => scanRetry cs
    | none => scanRetry cs

/-- Decimal digits to a natural number. -/
def digitsToNat (ds : List Char) : Nat :=
  ds.foldl (fun n c => 10 * n + (c.toNat - ('0').toNat)) 0

/-- Python `float` applied to a captured group of shape `\d+\.?\d*`,
as an exact rational. -/
def groupToRat (g : List Char) : ℚ :=
  let intPart := g.takeWhile Char.isDigit
  match g.dropWhile Char.isDigit with
  | '.' :: frac => (digitsToNat intPart : ℚ) + (digitsToNat frac : ℚ) / 10 ^ frac.length
  | _ => (digitsToNat intPart : ℚ)

/-- The server-suggested delay extraction of `analyze.py` lines 46-48:
`re.search` of `retry in (\d+\.?\d*)s` over `error_msg.lower()`, converted
with `float`. Lowering is per character, which agrees with Python for the
ASCII error messages at hand. -/
def extract_retry_delay (msg : String) : Option ℚ :=
  (scanRetry (msg.toList.map Char.toLower)).map groupToRat

/-- The wait computation of `analyze.py` lines 46-50 for a rate-limited
error on the 0-based loop attempt `attempt`: the extracted delay plus a one
second buffer when present, otherwise `15 * (attempt + 1)`. -/
def computeWait (msg : String) (attempt : Nat) : ℚ :=
  match extract_retry_delay msg with
  | some x => x + 1
  | none => 15 * ((attempt : ℚ) + 1)

/-- Modelled from the spec wording of the backoff property, for comparison
with the code: the claimed wait for a rate-limited message before retry
number `attempt_index` (1 on the first retry): the embedded duration plus
one second when present, otherwise `15 * attempt_index`. -/
def spec_wait (msg : String) (attempt_index : Nat) : ℚ :=
  match extract_retry_delay msg with
  | some x => x + 1
  | none => 15 * (attempt_index : ℚ)

/-- The retry loop body of `transcribe_with_retry` in `analyze.py`: `a` is
the current value of the 0-based loop variable `attempt`, the second
argument the number of loop iterations still available including this one.
Returns the result returned by the Python function, the number of client
calls made, and the sequence of wait durations slept.

The client is a function from the attempt number to the outcome of
`transcribe_with_gemini` for that call. -/
def retryAux (client : Nat → TResult) : Nat → Nat → TResult × Nat × List ℚ
  | a, 0 =>
    match client a with
    | .success t m p => (.success t m p, 1, [])
    | .error msg m p =>
      if isRateLimited msg then (.error msg m p, 1, [computeWait msg a])
      else (.error msg m p, 1, [])
  | a, 1 =>
    match client a with
    | .success t m p => (.success t m p, 1, [])
    | .error msg m p =>
      if isRateLimited msg then (.error msg m p, 1, [computeWait msg a])
      else (.error msg m p, 1, [])
  | a, r + 2 =>
    match client a with
    | .success t m p => (.success t m p, 1, [])
    | .error msg m p =>
      if isRateLimited msg then
        let t := retryAux client (a + 1) (r + 1)
        (t.1, t.2.1 + 1, computeWait msg a :: t.2.2)
      else (.error msg m p, 1, [])

/-- `transcribe_with_retry` of `analyze.py` lines 29-58. With
`max_retries = 0` the Python loop body never runs and the final
`return result` raises `NameError`; that case is `none`. -/
def transcribe_with_retry (client : Nat → TResult) (max_retries : Nat) :
    Option (TResult × Nat × List ℚ) :=
  if max_retries = 0 then none else some (retryAux client 0 max_retries)

/-- A model registry entry of `config.py`. -/
structure ModelConfig where
  name : String
  provider : String
  cost_per_page : ℚ
  deriving DecidableEq, Repr

/-- First-match lookup in an association list, as Python dict lookup over
string keys. -/
def listLookup {α : Type} : List (String × α) → String → Option α
  | [], _ => none
  | (k, v) :: rest, key => if k = key then some v else listLookup rest key

/-- In-place overwrite-or-append insertion, as Python dict item assignment. -/
def dictInsert {α : Type} (key : String) (v : α) : List (String × α) → List (String × α)
  | [] => [(key, v)]
  | (k, w) :: rest => if k = key then (key, v) :: rest else (k, w) :: dictInsert key v rest

/-- The `MODELS` registry of `config.py` lines 25-46. -/
def MODELS : List (String × ModelConfig) :=
  [("gemini-flash", ⟨"gemini-2.0-flash", "google", 2 / 1000⟩),
   ("gemini-pro", ⟨"gemini-1.5-pro", "google", 1 / 100⟩),
   ("claude-opus", ⟨"claude-opus-4-5-20251101", "anthropic", 3 / 100⟩),
   ("claude-sonnet", ⟨"claude-sonnet-4-20250514", "anthropic", 6 / 1000⟩)]

/-- `DEFAULT_MODEL` of `config.py`. -/
def DEFAULT_MODEL : String := "gemini-flash"

/-- Whether the two provider credentials are present in the environment:
`GEMINI_API_KEY` and `ANTHROPIC_API_KEY` of `config.py`. -/
structure EnvKeys where
  gemini : Bool
  anthropic : Bool
  deriving DecidableEq, Repr

/-- `transcribe_with_gemini` of `models/gemini.py`: `get_client()` is called
before the `try` block and raises `ValueError` when `GEMINI_API_KEY` is
absent; with the key present, every exception of the API call is caught, so
the call returns the (external) client outcome `apiResult`. -/
def transcribe_with_gemini (geminiKey : Bool) (apiResult : TResult) : Except String TResult :=
  if geminiKey then .ok apiResult
  else .error "GEMINI_API_KEY not set in environment"

/-- `transcribe_with_claude` of `models/claude.py`: the key check raises
`ValueError` before the `try` block when `ANTHROPIC_API_KEY` is absent;
otherwise every exception of the API call is caught. -/
def transcribe_with_claude (anthropicKey : Bool) (apiResult : TResult) : Except String TResult :=
  if anthropicKey then .ok apiResult
  else .error "ANTHROPIC_API_KEY not set in environment"

/-- The provider dispatch outcome of `transcribe_page` in `transcribe.py`
lines 73-78. -/
inductive Dispatch where
  | google (name : String)
  | anthropic (name : String)
  | unknownProvider (p : String)
  deriving DecidableEq, Repr

/-- The `if / elif / else` provider dispatch of `transcribe_page`. -/
def page_dispatch (cfg : ModelConfig) : Dispatch :=
  if cfg.provider = "google" then .google cfg.name
  else if cfg.provider = "anthropic" then .anthropic cfg.name
  else .unknownProvider cfg.provider

/-- `transcribe_page` of `transcribe.py` lines 69-78. `MODELS[model_key]`
raises `KeyError` for an unknown key; the `else` branch raises
`ValueError("Unknown provider: ...")`. The network outcome of the selected
client is the parameter `apiResult`. -/
def transcribe_page (env : EnvKeys) (apiResult : TResult) (model_key : String) :
    Except String TResult :=
  match listLookup MODELS model_key with
  | none => .error ("KeyError: " ++ model_key)
  | some cfg =>
    match page_dispatch cfg with
    | .google _ => transcribe_with_gemini env.gemini apiResult
    | .anthropic _ => transcribe_with_claude env.anthropic apiResult
    | .unknownProvider p => .error ("Unknown provider: " ++ p)

/-- A completed-document entry of the progress file:
`{timestamp, pages, model}`. Timestamps are the logical clock. -/
structure ProgressEntry where
  timestamp : Nat
  pages : Nat
  model : String
  deriving DecidableEq, Repr

/-- A failure record of the progress file: `{file, error, timestamp}`. -/
structure FailRec where
  file : String
  error : String
  timestamp : Nat
  deriving DecidableEq, Repr

/-- The progress store state: the JSON object held in `progress.json`. -/
structure ProgressData where
  completed : List (String × ProgressEntry)
  failed : List FailRec
  last_updated : Option Nat
  deriving DecidableEq, Repr

/-- `load_progress` of `transcribe.py` lines 56-60. The argument is the
state of the progress file: `none` when the file does not exist, otherwise
the outcome of `json.loads` on its text (which the code does not guard, so
a parse error propagates). -/
def load_progress (file : Option (Except String ProgressData)) : Except String ProgressData :=
  match file with
  | none => .ok ⟨[], [], none⟩
  | some r => r

/-- `save_progress` of `transcribe.py` lines 63-66: stamps `last_updated`
with the current clock and rewrites the whole file with the resulting
state, which is returned. -/
def save_progress (clock : Nat) (p : ProgressData) : ProgressData :=
  { p with last_updated := some clock }

/-- Python `str.split` on a one-character separator, over character lists. -/
def splitChars (sep : Char) : List Char → List (List Char)
  | [] => [[]]
  | c :: cs =>
    if c = sep then [] :: splitChars sep cs
    else
      match splitChars sep cs with
      | [] => [[c]]
      | pt :: rest => (c :: pt) :: rest

/-- Python `int()` on a string given as its characters: a value for a pure
digit string, a raised `ValueError` otherwise (signs, spacing and
underscores are not modelled; no call site of the claims uses them). -/
def pyInt (cs : List Char) : Except String Nat :=
  if cs ≠ [] ∧ cs.all Char.isDigit then .ok (digitsToNat cs)
  else .error "invalid literal for int"

/-- The page-range parsing of `transcribe.py` lines 163-172: default
`(1, None)`; for a string holding a dash, `start` is the first part and
`end` the second part, `None` when that part is empty (Python string
truthiness); for a plain number both are that number. The empty string is
falsy and keeps the default. -/
def parse_pages (pages : Option String) : Except String (Nat × Option Nat) :=
  match pages with
  | none => .ok (1, none)
  | some s =>
    if s = "" then .ok (1, none)
    else if strContains "-" s then
      match splitChars '-' s.toList with
      | p0 :: p1 :: _ =>
        match pyInt p0 with
        | .error e => .error e
        | .ok st =>
          if p1 = [] then .ok (st, none)
          else
            match pyInt p1 with
            | .error e => .error e
            | .ok en => .ok (st, some en)
      | _ => .error "unreachable split"
    else
      match pyInt s.toList with
      | .error e => .error e
      | .ok v => .ok (v, some v)

/-- The page filter of `transcribe.py` lines 203-206. Note `if end_page:`
is Python truthiness: the closed filter applies only when `end_page` is a
number other than 0; `None` and `0` both select the open filter. -/
def filterPages (start_page : Nat) (end_page : Option Nat) (pages : List Nat) : List Nat :=
  match end_page with
  | some e =>
    if e ≠ 0 then pages.filter (fun p => start_page ≤ p && p ≤ e)
    else pages.filter (fun p => start_page ≤ p)
  | none => pages.filter (fun p => start_page ≤ p)

/-- A per-page result as appended to `results["pages"]`: the returned dict
with `page_num` set. -/
structure PageResult where
  res : TResult
  page_num : Nat
  deriving DecidableEq, Repr

/-- The `results` dict of `transcribe.py` lines 211-218, as saved by
`save_results`. -/
structure BatchRecord where
  pdf_name : String
  total_pages : Nat
  pages_processed : Nat
  model : String
  timestamp : Nat
  pages : List PageResult
  deriving DecidableEq, Repr

/-- The transcription loop of `transcribe.py` lines 229-240 over the
filtered page numbers: each page makes one `transcribe_page` call; a raised
exception aborts the loop and discards the collected results. Returns the
loop outcome and the list of pages for which a client call was made. -/
def pageLoop (env : EnvKeys) (api : Nat → TResult) (model_key : String) :
    List Nat → Except String (List PageResult) × List Nat
  | [] => (.ok [], [])
  | p :: rest =>
    match transcribe_page env (api p) model_key with
    | .error e => (.error e, [p])
    | .ok r =>
      let t := pageLoop env api model_key rest
      (match t.1 with
       | .error e => .error e
       | .ok rs => .ok ({ res := r, page_num := p } :: rs), p :: t.2)

/-- One input document: its filename together with the outcome of
`pdf_to_images` on it — a fault message, or the page count `n` standing for
the pages numbered `1..n`. -/
structure PdfDoc where
  name : String
  raster : Except String Nat
  deriving Repr

/-- The observable effects of one iteration of the document loop. -/
structure DocOutcome where
  progress : ProgressData
  savedProgress : List ProgressData
  savedRecord : Option BatchRecord
  rasterCalled : Bool
  clientPages : List Nat
  clock : Nat
  deriving DecidableEq, Repr

/-- One iteration of the document loop of `transcribe.py` lines 187-261:
the resume skip check, then inside `try`: rasterization, page filtering,
the transcription loop, `save_results`, the completed-entry update and
`save_progress`; on any exception, a failure record is appended and the
progress saved. -/
def process_doc (env : EnvKeys) (api : Nat → TResult) (model_key : String)
    (start_page : Nat) (end_page : Option Nat) (resume : Bool)
    (progress : ProgressData) (clock : Nat) (d : PdfDoc) : DocOutcome :=
  if (listLookup progress.completed d.name).isSome && resume then
    { progress := progress, savedProgress := [], savedRecord := none,
      rasterCalled := false, clientPages := [], clock := clock }
  else
    match d.raster with
    | .error e =>
      let p1 : ProgressData :=
        { progress with failed := progress.failed ++ [⟨d.name, e, clock⟩] }
      let written := save_progress (clock + 1) p1
      { progress := written, savedProgress := [written], savedRecord := none,
        rasterCalled := true, clientPages := [], clock := clock + 2 }
    | .ok n =>
      let imgs := filterPages start_page end_page (List.range' 1 n)
      let t := pageLoop env api model_key imgs
      match t.1 with
      | .error e =>
        let p1 : ProgressData :=
          { progress with failed := progress.failed ++ [⟨d.name, e, clock + 1⟩] }
        let written := save_progress (clock + 2) p1
        { progress := written, savedProgress := [written], savedRecord := none,
          rasterCalled := true, clientPages := t.2, clock := clock + 3 }
      | .ok prs =>
        let record : BatchRecord :=
          { pdf_name := d.name, total_pages := n, pages_processed := imgs.length,
            model := model_key, timestamp := clock, pages := prs }
        let p1 : ProgressData :=
          { progress with
            completed := dictInsert d.name ⟨clock + 1, imgs.length, model_key⟩ progress.completed }
        let written := save_progress (clock + 2) p1
        { progress := written, savedProgress := [written], savedRecord := some record,
          rasterCalled := true, clientPages := t.2, clock := clock + 3 }

/-- The observable trace of a whole run of the document loop. -/
structure RunTrace where
  finalProgress : ProgressData
  fileWrites : List ProgressData
  records : List BatchRecord
  rasterCalls : List String
  clientCalls : List (String × Nat)
  deriving DecidableEq, Repr

/-- The document loop of `transcribe.py` lines 187-261 over the whole file
list, threading the progress state and the clock. -/
def runDocs (env : EnvKeys) (api : String → Nat → TResult) (model_key : String)
    (start_page : Nat) (end_page : Option Nat) (resume : Bool) :
    List PdfDoc → ProgressData → Nat → RunTrace
  | [], progress, _ =>
    { finalProgress := progress, fileWrites := [], records := [],
      rasterCalls := [], clientCalls := [] }
  | d :: ds, progress, clock =>
    let o := process_doc env (api d.name) model_key start_page end_page resume progress clock d
    let rest := runDocs env api model_key start_page end_page resume ds o.progress o.clock
    { finalProgress := rest.finalProgress,
      fileWrites := o.savedProgress ++ rest.fileWrites,
      records := (match o.savedRecord with | some r => [r] | none => []) ++ rest.records,
      rasterCalls := (if o.rasterCalled then [d.name] else []) ++ rest.rasterCalls,
      clientCalls := o.clientPages.map (fun p => (d.name, p)) ++ rest.clientCalls }

/-- The outcome of the `transcribe` command: an early `typer.Exit(1)`, an
uncaught exception raised before the document loop, or a completed run. -/
inductive RunResult where
  | exitNoModel
  | exitNoFiles
  | raised (e : String)
  | ran (t : RunTrace)
  deriving DecidableEq, Repr

/-- The `transcribe` command of `transcribe.py` lines 109-268, from the
model validation on (path resolution and the directory glob are filesystem
collaborators; their result is the `pdf_files` list): validate the model
key, reject an empty file list, parse the page range, then load the
progress when resuming or start from a fresh dict, and run the document
loop. `fileState` is the progress file state as in `load_progress`. -/
def transcribe (env : EnvKeys) (api : String → Nat → TResult) (model : String)
    (pdf_files : List PdfDoc) (pages : Option String) (resume : Bool)
    (fileState : Option (Except String ProgressData)) : RunResult :=
  if (listLookup MODELS model).isNone then .exitNoModel
  else if pdf_files.isEmpty then .exitNoFiles
  else
    match parse_pages pages with
    | .error e => .raised e
    | .ok (start_page, end_page) =>
      match (if resume then load_progress fileState else .ok ⟨[], [], none⟩) with
      | .error e => .raised e
      | .ok progress =>
        .ran (runDocs env api model start_page end_page resume pdf_files progress 0)

/-- Projection of a completed run trace; the empty trace otherwise. -/
def traceOf : RunResult → RunTrace
  | .ran t => t
  | _ => ⟨⟨[], [], none⟩, [], [], [], []⟩

theorem retryAux_wait (client : Nat → TResult) :
    ∀ r a j w, ((retryAux client a r).2.2).get? j = some w →
      ∃ msg m p, client (a + j) = TResult.error msg m p ∧
        isRateLimited msg = true ∧ w = computeWait msg (a + j)
  | 0, a, j, w => by
    unfold retryAux
    cases hc : client a with
    | success t m p => simp
    | error msg m p =>
      by_cases hrl : isRateLimited msg
      · simp only [hrl, if_true]
        cases j with
        | zero => intro h; simp at h; exact ⟨msg, m, p, by simpa using hc, hrl, by simp [h]⟩
        | succ j => simp
      · simp [hrl]
  | 1, a, j, w => by
    unfold retryAux
    cases hc : client a with
    | success t m p => simp
    | error msg m p =>
      by_cases hrl : isRateLimited msg
      · simp only [hrl, if_true]
        cases j with
        | zero => intro h; simp at h; exact ⟨msg, m, p, by simpa using hc, hrl, by simp [h]⟩
        | succ j => simp
      · simp [hrl]
  | r + 2, a, j, w => by
    unfold retryAux
    cases hc : client a with
    | success t m p => simp
    | error msg m p =>
      by_cases hrl : isRateLimited msg
      · simp only [hrl, if_true]
        cases j with
        | zero =>
          intro h
          simp at h
          exact ⟨msg, m, p, by simpa using hc, hrl, by simp [h]⟩
        | succ j =>
          intro h
          simp only [List.get?_cons_succ] at h
          obtain ⟨msg', m', p', hc', hrl', hw⟩ := retryAux_wait client (r + 1) (a + 1) j w h
          refine ⟨msg', m', p', ?_, hrl', ?_⟩
          · have : a + 1 + j = a + (j + 1) := by omega
            rwa [this] at hc'
          · have : a + 1 + j = a + (j + 1) := by omega
            rwa [this] at hw
      · simp [hrl]

/-! Association list lemmas. -/

theorem listLookup_mem {α : Type} :
    ∀ (l : List (String × α)) (key : String) (v : α),
      listLookup l key = some v → (key, v) ∈ l
  | [], _, _ => by simp [listLookup]
  | (k, w) :: rest, key, v => by
    simp only [listLookup]
    by_cases hk : k = key
    · subst hk
      intro h
      simp at h
      simp [h]
    · simp only [hk, if_false]
      intro h
      exact List.mem_cons_of_mem _ (listLookup_mem rest key v h)

theorem listLookup_dictInsert_self {α : Type} (k : String) (v : α) :
    ∀ l : List (String × α), listLookup (dictInsert k v l) k = some v
  | [] => by simp [dictInsert, listLookup]
  | (k', w) :: rest => by
    simp only [dictInsert]
    by_cases hk : k' = k
    · simp [hk, listLookup]
    · simp [hk, listLookup, listLookup_dictInsert_self k v rest]

theorem listLookup_dictInsert_ne {α : Type} (k name : String) (v : α) (hne : name ≠ k) :
    ∀ l : List (String × α), listLookup (dictInsert k v l) name = listLookup l name
  | [] => by
    have hk : ¬(k = name) := fun h => hne h.symm
    simp [dictInsert, listLookup, hk]
  | (k', w) :: rest => by
    by_cases hk : k' = k
    · subst hk
      have h1 : ¬(k' = name) := fun h => hne h.symm
      simp [dictInsert, listLookup, h1]
    · simp only [dictInsert, hk, if_false, listLookup]
      by_cases h2 : k' = name
      · simp [h2]
      · simp [h2, listLookup_dictInsert_ne k name v hne rest]

theorem listLookup_dictInsert_isSome {α : Type} (k name : String) (v : α)
    (l : List (String × α)) (h : (listLookup l name).isSome = true) :
    (listLookup (dictInsert k v l) name).isSome = true := by
  by_cases hk : name = k
  · subst hk
    simp [listLookup_dictInsert_self]
  · rwa [listLookup_dictInsert_ne k name v hk l]

theorem mem_dictInsert {α : Type} (k : String) (v : α) :
    ∀ (l : List (String × α)) (kv : String × α),
      kv ∈ dictInsert k v l → kv.1 = k ∨ kv ∈ l
  | [], kv => by
    intro h
    simp [dictInsert] at h
    left
    simp [h]
  | (k', w) :: rest, kv => by
    intro h
    by_cases hk : k' = k
    · subst hk
      simp [dictInsert] at h
      rcases h with h | h
      · left; simp [h]
      · right; exact List.mem_cons_of_mem _ h
    · simp [dictInsert, hk] at h
      rcases h with h | h
      · right; simp [h]
      · rcases mem_dictInsert k v rest kv h with h' | h'
        · exact Or.inl h'
        · exact Or.inr (List.mem_cons_of_mem _ h')

/-! Lemmas about one iteration of the document loop. -/

theorem process_doc_saved_eq (env : EnvKeys) (api : Nat → TResult) (mk : String)
    (sp : Nat) (ep : Option Nat) (r : Bool) (prog : ProgressData) (clock : Nat)
    (d : PdfDoc) (w : ProgressData)
    (hw : w ∈ (process_doc env api mk sp ep r prog clock d).savedProgress) :
    w = (process_doc env api mk sp ep r prog clock d).progress := by
  unfold process_doc at *
  by_cases hs : (listLookup prog.completed d.name).isSome && r
  · simp [hs] at hw
  · simp only [hs, Bool.false_eq_true, if_false] at *
    cases hr : d.raster with
    | error e => simp [hr] at hw ⊢; exact hw
    | ok n =>
      simp only [hr] at hw ⊢
      cases hpl : (pageLoop env api mk (filterPages sp ep (List.range' 1 n))).1 with
      | error e => simp [hpl] at hw ⊢; exact hw
      | ok prs => simp [hpl] at hw ⊢; exact hw

theorem process_doc_completed_sub (env : EnvKeys) (api : Nat → TResult) (mk : String)
    (sp : Nat) (ep : Option Nat) (r : Bool) (prog : ProgressData) (clock : Nat)
    (d : PdfDoc) (kv : String × ProgressEntry)
    (h : kv ∈ (process_doc env api mk sp ep r prog clock d).progress.completed) :
    kv.1 = d.name ∨ kv ∈ prog.completed := by
  unfold process_doc at h
  by_cases hs : (listLookup prog.completed d.name).isSome && r
  · simp [hs] at h
    exact Or.inr h
  · simp only [hs, Bool.false_eq_true, if_false] at h
    cases hr : d.raster with
    | error e =>
      simp [hr, save_progress] at h
      exact Or.inr h
    | ok n =>
      simp only [hr] at h
      cases hpl : (pageLoop env api mk (filterPages sp ep (List.range' 1 n))).1 with
      | error e =>
        simp [hpl, save_progress] at h
        exact Or.inr h
      | ok prs =>
        simp [hpl, save_progress] at h
        exact mem_dictInsert _ _ _ _ h

theorem process_doc_failed_sub (env : EnvKeys) (api : Nat → TResult) (mk : String)
    (sp : Nat) (ep : Option Nat) (r : Bool) (prog : ProgressData) (clock : Nat)
    (d : PdfDoc) (f : FailRec)
    (h : f ∈ (process_doc env api mk sp ep r prog clock d).progress.failed) :
    f.file = d.name ∨ f ∈ prog.failed := by
  unfold process_doc at h
  by_cases hs : (listLookup prog.completed d.name).isSome && r
  · simp [hs] at h
    exact Or.inr h
  · simp only [hs, Bool.false_eq_true, if_false] at h
    cases hr : d.raster with
    | error e =>
      simp [hr, save_progress] at h
      rcases h with h | h
      · exact Or.inr h
      · subst h; exact Or.inl rfl
    | ok n =>
      simp only [hr] at h
      cases hpl : (pageLoop env api mk (filterPages sp ep (List.range' 1 n))).1 with
      | error e =>
        simp [hpl, save_progress] at h
        rcases h with h | h
        · exact Or.inr h
        · subst h; exact Or.inl rfl
      | ok prs =>
        simp [hpl, save_progress] at h
        exact Or.inr h

theorem process_doc_failed_mono (env : EnvKeys) (api : Nat → TResult) (mk : String)
    (sp : Nat) (ep : Option Nat) (r : Bool) (prog : ProgressData) (clock : Nat)
    (d : PdfDoc) (f : FailRec) (h : f ∈ prog.failed) :
    f ∈ (process_doc env api mk sp ep r prog clock d).progress.failed := by
  unfold process_doc
  by_cases hs : (listLookup prog.completed d.name).isSome && r
  · simpa [hs] using h
  · simp only [hs, Bool.false_eq_true, if_false]
    cases hr : d.raster with
    | error e => simp [hr, save_progress]; exact Or.inl h
    | ok n =>
      cases hpl : (pageLoop env api mk (filterPages sp ep (List.range' 1 n))).1 with
      | error e => simp [hr, hpl, save_progress]; exact Or.inl h
      | ok prs => simpa [hr, hpl, save_progress] using h

theorem process_doc_lookup_mono (env : EnvKeys) (api : Nat → TResult) (mk : String)
    (sp : Nat) (ep : Option Nat) (r : Bool) (prog : ProgressData) (clock : Nat)
    (d : PdfDoc) (name : String)
    (h : (listLookup prog.completed name).isSome = true) :
    (listLookup (process_doc env api mk sp ep r prog clock d).progress.completed name).isSome
      = true := by
  unfold process_doc
  by_cases hs : (listLookup prog.completed d.name).isSome && r
  · simpa [hs] using h
  · simp only [hs, Bool.false_eq_true, if_false]
    cases hr : d.raster with
    | error e => simpa [hr, save_progress] using h
    | ok n =>
      cases hpl : (pageLoop env api mk (filterPages sp ep (List.range' 1 n))).1 with
      | error e => simpa [hr, hpl, save_progress] using h
      | ok prs =>
        simp [hr, hpl, save_progress]
        exact listLookup_dictInsert_isSome _ _ _ _ h

theorem process_doc_lookup_ne (env : EnvKeys) (api : Nat → TResult) (mk : String)
    (sp : Nat) (ep : Option Nat) (r : Bool) (prog : ProgressData) (clock : Nat)
    (d : PdfDoc) (name : String) (hne : name ≠ d.name) :
    listLookup (process_doc env api mk sp ep r prog clock d).progress.completed name
      = listLookup prog.completed name := by
  unfold process_doc
  by_cases hs : (listLookup prog.completed d.name).isSome && r
  · simp [hs]
  · simp only [hs, Bool.false_eq_true, if_false]
    cases hr : d.raster with
    | error e => simp [hr, save_progress]
    | ok n =>
      cases hpl : (pageLoop env api mk (filterPages sp ep (List.range' 1 n))).1 with
      | error e => simp [hr, hpl, save_progress]
      | ok prs =>
        simp [hr, hpl, save_progress]
        exact listLookup_dictInsert_ne _ _ _ hne _

/-! Lemmas about the whole document loop. -/

theorem runDocs_failed_mono (env : EnvKeys) (api : String → Nat → TResult) (mk : String)
    (sp : Nat) (ep : Option Nat) (r : Bool) (f : FailRec) :
    ∀ (docs : List PdfDoc) (prog : ProgressData) (clock : Nat), f ∈ prog.failed →
      f ∈ (runDocs env api mk sp ep r docs prog clock).finalProgress.failed
  | [], prog, clock => by
    intro h
    simpa [runDocs] using h
  | d :: ds, prog, clock => by
    intro h
    simp only [runDocs]
    exact runDocs_failed_mono env api mk sp ep r f ds _ _
      (process_doc_failed_mono env (api d.name) mk sp ep r prog clock d f h)

theorem runDocs_lookup_mono (env : EnvKeys) (api : String → Nat → TResult) (mk : String)
    (sp : Nat) (ep : Option Nat) (r : Bool) (name : String) :
    ∀ (docs : List PdfDoc) (prog : ProgressData) (clock : Nat),
      (listLookup prog.completed name).isSome = true →
      (listLookup (runDocs env api mk sp ep r docs prog clock).finalProgress.completed
        name).isSome = true
  | [], prog, clock => by
    intro h
    simpa [runDocs] using h
  | d :: ds, prog, clock => by
    intro h
    simp only [runDocs]
    exact runDocs_lookup_mono env api mk sp ep r name ds _ _
      (process_doc_lookup_mono env (api d.name) mk sp ep r prog clock d name h)

theorem runDocs_no_touch (env : EnvKeys) (api : String → Nat → TResult) (mk : String)
    (sp : Nat) (ep : Option Nat) (name : String) (pg : Nat) :
    ∀ (docs : List PdfDoc) (prog : ProgressData) (clock : Nat),
      (listLookup prog.completed name).isSome = true →
      ¬ name ∈ (runDocs env api mk sp ep true docs prog clock).rasterCalls ∧
      ¬ (name, pg) ∈ (runDocs env api mk sp ep true docs prog clock).clientCalls
  | [], prog, clock => by
    intro h
    simp [runDocs]
  | d :: ds, prog, clock => by
    intro h
    simp only [runDocs, List.mem_append]
    have ih := runDocs_no_touch env api mk sp ep name pg ds
      (process_doc env (api d.name) mk sp ep true prog clock d).progress
      (process_doc env (api d.name) mk sp ep true prog clock d).clock
      (process_doc_lookup_mono env (api d.name) mk sp ep true prog clock d name h)
    by_cases hd : d.name = name
    · subst hd
      have hskip : ((listLookup prog.completed d.name).isSome && true) = true := by
        simp [h]
      constructor
      · rintro (h1 | h1)
        · simp [process_doc, hskip] at h1
        · exact ih.1 h1
      · rintro (h1 | h1)
        · simp [process_doc, hskip] at h1
        · exact ih.2 h1
    · constructor
      · rintro (h1 | h1)
        · rcases (by split at h1 <;> simp_all :
            name ∈ (if (process_doc env (api d.name) mk sp ep true prog clock d).rasterCalled
              then [d.name] else []) → name = d.name) h1 with h2
          exact hd h2.symm
        · exact ih.1 h1
      · rintro (h1 | h1)
        · simp only [List.mem_map] at h1
          obtain ⟨x, _, hx⟩ := h1
          exact hd (congrArg Prod.fst hx)
        · exact ih.2 h1

theorem runDocs_completed_sub (env : EnvKeys) (api : String → Nat → TResult) (mk : String)
    (sp : Nat) (ep : Option Nat) (r : Bool) (kv : String × ProgressEntry) :
    ∀ (docs : List PdfDoc) (prog : ProgressData) (clock : Nat) (w : ProgressData),
      w ∈ (runDocs env api mk sp ep r docs prog clock).fileWrites →
      kv ∈ w.completed → kv ∈ prog.completed ∨ kv.1 ∈ docs.map PdfDoc.name
  | [], prog, clock, w => by
    intro hw
    simp [runDocs] at hw
  | d :: ds, prog, clock, w => by
    intro hw hkv
    simp only [runDocs, List.mem_append] at hw
    rcases hw with hw | hw
    · have := process_doc_saved_eq env (api d.name) mk sp ep r prog clock d w hw
      subst this
      rcases process_doc_completed_sub env (api d.name) mk sp ep r prog clock d kv hkv
        with h | h
      · right; simp [h]
      · left; exact h
    · rcases runDocs_completed_sub env api mk sp ep r kv ds _ _ w hw hkv with h | h
      · rcases process_doc_completed_sub env (api d.name) mk sp ep r prog clock d kv h
          with h' | h'
        · right; simp [h']
        · left; exact h'
      · right
        simp only [List.map_cons, List.mem_cons]
        exact Or.inr h

theorem runDocs_failed_sub (env : EnvKeys) (api : String → Nat → TResult) (mk : String)
    (sp : Nat) (ep : Option Nat) (r : Bool) (f : FailRec) :
    ∀ (docs : List PdfDoc) (prog : ProgressData) (clock : Nat) (w : ProgressData),
      w ∈ (runDocs env api mk sp ep r docs prog clock).fileWrites →
      f ∈ w.failed → f ∈ prog.failed ∨ f.file ∈ docs.map PdfDoc.name
  | [], prog, clock, w => by
    intro hw
    simp [runDocs] at hw
  | d :: ds, prog, clock, w => by
    intro hw hf
    simp only [runDocs, List.mem_append] at hw
    rcases hw with hw | hw
    · have := process_doc_saved_eq env (api d.name) mk sp ep r prog clock d w hw
      subst this
      rcases process_doc_failed_sub env (api d.name) mk sp ep r prog clock d f hf
        with h | h
      · right; simp [h]
      · left; exact h
    · rcases runDocs_failed_sub env api mk sp ep r f ds _ _ w hw hf with h | h
      · rcases process_doc_failed_sub env (api d.name) mk sp ep r prog clock d f h
          with h' | h'
        · right; simp [h']
        · left; exact h'
      · right
        simp only [List.map_cons, List.mem_cons]
        exact Or.inr h

theorem runDocs_lookup_ne (env : EnvKeys) (api : String → Nat → TResult) (mk : String)
    (sp : Nat) (ep : Option Nat) (r : Bool) (name : String) :
    ∀ (docs : List PdfDoc) (prog : ProgressData) (clock : Nat) (w : ProgressData),
      ¬ name ∈ docs.map PdfDoc.name →
      w ∈ (runDocs env api mk sp ep r docs prog clock).fileWrites →
      listLookup w.completed name = listLookup prog.completed name
  | [], prog, clock, w => by
    intro _ hw
    simp [runDocs] at hw
  | d :: ds, prog, clock, w => by
    intro hname hw
    have hne : name ≠ d.name := by
      intro h
      exact hname (by simp [h])
    have hds : ¬ name ∈ ds.map PdfDoc.name := by
      intro h
      exact hname (by simp [h])
    simp only [runDocs, List.mem_append] at hw
    rcases hw with hw | hw
    · have := process_doc_saved_eq env (api d.name) mk sp ep r prog clock d w hw
      subst this
      exact process_doc_lookup_ne env (api d.name) mk sp ep r prog clock d name hne
    · rw [runDocs_lookup_ne env api mk sp ep r name ds _ _ w hds hw]
      exact process_doc_lookup_ne env (api d.name) mk sp ep r prog clock d name hne

/-- Inversion for a completed run of the `transcribe` command. -/
theorem transcribe_ran_inv (env : EnvKeys) (api : String → Nat → TResult) (model : String)
    (docs : List PdfDoc) (pages : Option String) (r : Bool)
    (fs : Option (Except String ProgressData)) (t : RunTrace)
    (h : transcribe env api model docs pages r fs = .ran t) :
    ∃ sp ep p0, parse_pages pages = .ok (sp, ep) ∧
      (if r then load_progress fs else .ok ⟨[], [], none⟩) = .ok p0 ∧
      t = runDocs env api model sp ep r docs p0 0 := by
  unfold transcribe at h
  by_cases h1 : (listLookup MODELS model).isNone
  · simp [h1] at h
  by_cases h2 : docs.isEmpty
  · simp [h1, h2] at h
  simp only [h1, h2, Bool.false_eq_true, if_false] at h
  cases hp : parse_pages pages with
  | error e => rw [hp] at h; cases h
  | ok se =>
    obtain ⟨sp, ep⟩ := se
    rw [hp] at h
    cases hl : (if r then load_progress fs else .ok ⟨[], [], none⟩) with
    | error e => rw [hl] at h; cases h
    | ok p0 =>
      rw [hl] at h
      cases h
      exact ⟨sp, ep, p0, rfl, rfl, rfl⟩

theorem computeWait_eq_spec (msg : String) (j : Nat) :
    computeWait msg j = spec_wait msg (j + 1) := by
  unfold computeWait spec_wait
  cases h : extract_retry_delay msg with
  | some x => simp [h]
  | none =>
    simp only [h]
    push_cast
    ring

/-- C3: when the Retry Controller receives an error result whose message
carries a rate-limit signature, the wait it performs before the next attempt
is the embedded `retry in X s` duration plus one second when that fragment
is present, and otherwise `15 * attempt_index` seconds with `attempt_index`
equal to 1 on the first retry, 2 on the second, and so on. Formally: any
wait performed at position `j` of the wait trace belongs to a rate-limited
error result of the `j`-th client call and equals `spec_wait` of its
message at attempt index `j + 1`. -/
theorem C3_rate_limit_backoff (client : Nat → TResult) (max_retries j : Nat)
    (res : TResult) (c : Nat) (ws : List ℚ) (w : ℚ) (msg m p : String)
    (hrun : transcribe_with_retry client max_retries = some (res, c, ws))
    (hw : ws.get? j = some w)
    (hc : client j = TResult.error msg m p) :
    isRateLimited msg = true ∧ w = spec_wait msg (j + 1) := by
  unfold transcribe_with_retry at hrun
  by_cases hm : max_retries = 0
  · simp [hm] at hrun
  · simp only [hm, if_false] at hrun
    have hinj := Option.some.inj hrun
    have hws : (retryAux client 0 max_retries).2.2 = ws :=
      congrArg (fun t => t.2.2) hinj
    rw [← hws] at hw
    obtain ⟨msg', m', p', hc', hrl', hwv⟩ := retryAux_wait client max_retries 0 j w hw
    rw [Nat.zero_add] at hc' hwv
    rw [hc] at hc'
    simp only [TResult.error.injEq] at hc'
    obtain ⟨e1, e2, e3⟩ := hc'
    subst e1
    exact ⟨hrl', by rw [hwv, computeWait_eq_spec]⟩

theorem C3_rate_limit_backoff_witness :
    isRateLimited "429 quota" = true ∧ (15 : ℚ) = spec_wait "429 quota" 1 := by
  have hrl : isRateLimited "429 quota" = true := by decide
  have hrun : transcribe_with_retry (fun _ => TResult.error "429 quota" "m" "g") 3
      = some (TResult.error "429 quota" "m" "g", 3,
          [computeWait "429 quota" 0, computeWait "429 quota" 1, computeWait "429 quota" 2]) := by
    simp [transcribe_with_retry, retryAux, hrl]
  have hw : ([computeWait "429 quota" 0, computeWait "429 quota" 1,
      computeWait "429 quota" 2]).get? 0 = some (computeWait "429 quota" 0) := rfl
  have h := C3_rate_limit_backoff (fun _ => TResult.error "429 quota" "m" "g") 3 0
      (TResult.error "429 quota" "m" "g") 3
      [computeWait "429 quota" 0, computeWait "429 quota" 1, computeWait "429 quota" 2]
      (computeWait "429 quota" 0) "429 quota" "m" "g" hrun hw rfl
  refine ⟨h.1, ?_⟩
  have hex : extract_retry_delay "429 quota" = none := by decide
  have hcw : computeWait "429 quota" 0 = 15 := by
    simp [computeWait, hex]
  rw [← hcw, h.2]

/-- C4: with the default maximum of 3 attempts and a client that returns a
rate-limited error result on every call, the Retry Controller makes exactly
3 client calls and its return value is the third call result itself, not a
distinct retries-exhausted error. -/
theorem C4_retry_exhaustion (msgF : Nat → String) (m p : String)
    (hrl : ∀ a, isRateLimited (msgF a) = true) :
    (transcribe_with_retry (fun a => TResult.error (msgF a) m p) 3).map
        (fun t => (t.1, t.2.1)) = some (TResult.error (msgF 2) m p, 3) := by
  simp [transcribe_with_retry, retryAux, hrl 0, hrl 1, hrl 2]

theorem C4_retry_exhaustion_witness :
    isRateLimited "429 quota" = true ∧
    (transcribe_with_retry (fun _ => TResult.error "429 quota" "m" "g") 3).map
        (fun t => (t.1, t.2.1)) = some (TResult.error "429 quota" "m" "g", 3) :=
  ⟨by decide,
    C4_retry_exhaustion (fun _ => "429 quota") "m" "g"
      (fun _ => (by decide : isRateLimited "429 quota" = true))⟩

/-- C8 counterexample: on a progress file whose text does not deserialize,
`load_progress` propagates the parse error; it does not return the fresh
empty structure the claim asserts. -/
theorem C8_counterexample :
    load_progress (some (Except.error "Expecting value: line 1 column 1"))
      ≠ Except.ok (⟨[], [], none⟩ : ProgressData) :=
  fun h => Except.noConfusion h

/-- C8 amended: `load_progress` returns the fresh empty structure when no
progress file exists, returns the persisted mapping when the file parses,
and propagates the deserialization error (an uncaught exception) when it
does not. -/
theorem C8_load_progress (p0 : ProgressData) (e : String) :
    load_progress none = Except.ok (⟨[], [], none⟩ : ProgressData) ∧
    load_progress (some (Except.ok p0)) = Except.ok p0 ∧
    load_progress (some (Except.error e)) = Except.error e :=
  ⟨rfl, rfl, rfl⟩

/-- C10: every entry of the `MODELS` registry has provider `google` or
`anthropic`, so for any registry key the provider dispatch of
`transcribe_page` never reaches the unknown-provider branch that raises
`ValueError`. -/
theorem C10_no_unknown_provider (key : String) (cfg : ModelConfig) (p : String)
    (hk : listLookup MODELS key = some cfg) :
    (cfg.provider = "google" ∨ cfg.provider = "anthropic") ∧
    page_dispatch cfg ≠ Dispatch.unknownProvider p := by
  have hmem : (key, cfg) ∈ MODELS := listLookup_mem MODELS key cfg hk
  have hprov : ∀ kc ∈ MODELS, kc.2.provider = "google" ∨ kc.2.provider = "anthropic" := by
    decide
  have h : cfg.provider = "google" ∨ cfg.provider = "anthropic" := by
    simpa using hprov (key, cfg) hmem
  refine ⟨h, ?_⟩
  unfold page_dispatch
  rcases h with h | h
  · simp [h]
  · by_cases hg : cfg.provider = "google"
    · simp [hg]
    · simp [hg, h]

theorem C10_no_unknown_provider_witness :
    listLookup MODELS "gemini-flash"
      = some (⟨"gemini-2.0-flash", "google", 2 / 1000⟩ : ModelConfig) ∧
    ((⟨"gemini-2.0-flash", "google", 2 / 1000⟩ : ModelConfig).provider = "google" ∨
      (⟨"gemini-2.0-flash", "google", 2 / 1000⟩ : ModelConfig).provider = "anthropic") ∧
    page_dispatch ⟨"gemini-2.0-flash", "google", 2 / 1000⟩ ≠ Dispatch.unknownProvider "x" := by
  have hk : listLookup MODELS "gemini-flash"
      = some (⟨"gemini-2.0-flash", "google", 2 / 1000⟩ : ModelConfig) := by
    simp [ MODELS, listLookup]
  exact ⟨hk, C10_no_unknown_provider "gemini-flash" ⟨"gemini-2.0-flash", "google", 2 / 1000⟩
    "x" hk⟩

theorem pageLoop_ok (env : EnvKeys) (api : Nat → TResult) (mk : String)
    (hok : ∀ pg, transcribe_page env (api pg) mk = Except.ok (api pg)) :
    ∀ l, pageLoop env api mk l
      = (Except.ok (l.map (fun pg => ⟨api pg, pg⟩)), l)
  | [] => by simp [pageLoop]
  | p :: rest => by
    simp [pageLoop, hok p, pageLoop_ok env api mk hok rest]

/-- C1 counterexample: with a client whose every call returns a rate-limited
error result, the batch runner of the `transcribe` command makes exactly one
client call for the single page of the document and records the error result
in the Batch Record, while the Retry Controller given the same
always-rate-limited client and the default maximum of 3 attempts makes 3
calls: the batch runner does not route page transcription through the Retry
Controller. -/
theorem C1_counterexample :
    (traceOf (transcribe ⟨true, true⟩
        (fun _ _ => TResult.error "429 rate limited" "gemini-2.0-flash" "google")
        "gemini-flash" [⟨"a.pdf", Except.ok 1⟩] none false none)).clientCalls.length = 1 ∧
    (traceOf (transcribe ⟨true, true⟩
        (fun _ _ => TResult.error "429 rate limited" "gemini-2.0-flash" "google")
        "gemini-flash" [⟨"a.pdf", Except.ok 1⟩] none false none)).records.map
          (fun r => r.pages)
      = [[⟨TResult.error "429 rate limited" "gemini-2.0-flash" "google", 1⟩]] ∧
    (transcribe_with_retry
        (fun _ => TResult.error "429 rate limited" "gemini-2.0-flash" "google") 3).map
          (fun t => t.2.1)
      = some 3 ∧
    (1 : Nat) ≠ 3 := by
  refine ⟨by decide, by decide, ?_, by decide⟩
  have hrl : isRateLimited "429 rate limited" = true := by decide
  simp [transcribe_with_retry, retryAux, hrl]

/-- C1 amended: for every matching, not-yet-completed document the batch
runner of the `transcribe` command submits each filtered page through a
single direct `transcribe_page` call, in page order, and records each call
result unchanged in the Batch Record; no retry takes place (the Retry
Controller exists only in the separate analysis script). -/
theorem C1_batch_single_call (env : EnvKeys) (api : Nat → TResult) (mk : String)
    (sp : Nat) (ep : Option Nat) (r : Bool) (prog : ProgressData) (clock n : Nat)
    (d : PdfDoc)
    (hskip : ((listLookup prog.completed d.name).isSome && r) = false)
    (hr : d.raster = Except.ok n)
    (hok : ∀ pg, transcribe_page env (api pg) mk = Except.ok (api pg)) :
    (process_doc env api mk sp ep r prog clock d).clientPages
        = filterPages sp ep (List.range' 1 n) ∧
    (process_doc env api mk sp ep r prog clock d).savedRecord
        = some { pdf_name := d.name, total_pages := n,
                 pages_processed := (filterPages sp ep (List.range' 1 n)).length,
                 model := mk, timestamp := clock,
                 pages := (filterPages sp ep (List.range' 1 n)).map
                   (fun pg => ⟨api pg, pg⟩) } := by
  unfold process_doc
  simp [hskip, hr, pageLoop_ok env api mk hok]

theorem C1_batch_single_call_witness :
    transcribe_page ⟨true, true⟩ (TResult.success "t" "m" "g") "gemini-flash"
        = Except.ok (TResult.success "t" "m" "g") ∧
    (process_doc ⟨true, true⟩ (fun _ => TResult.success "t" "m" "g") "gemini-flash"
        1 none false ⟨[], [], none⟩ 0 ⟨"a.pdf", Except.ok 2⟩).clientPages
      = filterPages 1 none (List.range' 1 2) ∧
    (process_doc ⟨true, true⟩ (fun _ => TResult.success "t" "m" "g") "gemini-flash"
        1 none false ⟨[], [], none⟩ 0 ⟨"a.pdf", Except.ok 2⟩).savedRecord
      = some { pdf_name := "a.pdf", total_pages := 2,
               pages_processed := (filterPages 1 none (List.range' 1 2)).length,
               model := "gemini-flash", timestamp := 0,
               pages := (filterPages 1 none (List.range' 1 2)).map
                 (fun pg => ⟨TResult.success "t" "m" "g", pg⟩) } := by
  have h := C1_batch_single_call ⟨true, true⟩ (fun _ => TResult.success "t" "m" "g")
    "gemini-flash" 1 none false ⟨[], [], none⟩ 0 2 ⟨"a.pdf", Except.ok 2⟩
    rfl rfl (fun _ => rfl)
  exact ⟨rfl, h.1, h.2⟩

theorem transcribe_page_gemini_missing (b : Bool) (apiR : TResult) (mk : String)
    (cfg : ModelConfig)
    (hk : listLookup MODELS mk = some cfg) (hp : cfg.provider = "google") :
    transcribe_page ⟨false, b⟩ apiR mk
      = Except.error "GEMINI_API_KEY not set in environment" := by
  unfold transcribe_page
  rw [hk]
  unfold page_dispatch
  simp [hp, transcribe_with_gemini]

/-- C2 counterexample: with the Gemini credential absent and a Google model
selected, the run does not fail before processing: the document is
rasterized and a per-document failure record carrying the configuration
error is written to the Progress Store. -/
theorem C2_counterexample :
    (traceOf (transcribe ⟨false, true⟩ (fun _ _ => TResult.success "text" "m" "google")
        "gemini-flash" [⟨"a.pdf", Except.ok 2⟩] none true none)).rasterCalls
      = ["a.pdf"] ∧
    (traceOf (transcribe ⟨false, true⟩ (fun _ _ => TResult.success "text" "m" "google")
        "gemini-flash" [⟨"a.pdf", Except.ok 2⟩] none true none)).finalProgress.failed
      = [⟨"a.pdf", "GEMINI_API_KEY not set in environment", 1⟩] :=
  ⟨by decide, by decide⟩

/-- C2 amended: when the credential of the selected Google model is absent,
the configuration error is raised at the first page call of each processed
document, after that document has been rasterized; the per-document handler
catches it, appends a failure record with that error text, persists the
store, saves no Batch Record, and the run continues rather than aborting
before processing. -/
theorem C2_missing_key_caught (b : Bool) (api : Nat → TResult) (mk : String)
    (cfg : ModelConfig) (sp : Nat) (ep : Option Nat) (r : Bool) (prog : ProgressData)
    (clock n p : Nat) (ps : List Nat) (d : PdfDoc)
    (hk : listLookup MODELS mk = some cfg) (hp : cfg.provider = "google")
    (hskip : ((listLookup prog.completed d.name).isSome && r) = false)
    (hr : d.raster = Except.ok n)
    (hfp : filterPages sp ep (List.range' 1 n) = p :: ps) :
    process_doc ⟨false, b⟩ api mk sp ep r prog clock d =
      { progress := save_progress (clock + 2)
          { prog with failed := prog.failed ++
              [⟨d.name, "GEMINI_API_KEY not set in environment", clock + 1⟩] },
        savedProgress := [save_progress (clock + 2)
          { prog with failed := prog.failed ++
              [⟨d.name, "GEMINI_API_KEY not set in environment", clock + 1⟩] }],
        savedRecord := none, rasterCalled := true, clientPages := [p],
        clock := clock + 3 } := by
  unfold process_doc
  have hpage := transcribe_page_gemini_missing b (api p) mk cfg hk hp
  simp [hskip, hr, hfp, pageLoop, hpage]

theorem C2_missing_key_caught_witness :
    listLookup MODELS "gemini-flash"
        = some (⟨"gemini-2.0-flash", "google", 2 / 1000⟩ : ModelConfig) ∧
    filterPages 1 none (List.range' 1 2) = 1 :: [2] ∧
    process_doc ⟨false, true⟩ (fun _ => TResult.success "t" "m" "g") "gemini-flash"
        1 none false ⟨[], [], none⟩ 0 ⟨"a.pdf", Except.ok 2⟩ =
      { progress := save_progress 2
          { (⟨[], [], none⟩ : ProgressData) with failed :=
              (⟨[], [], none⟩ : ProgressData).failed ++
                [⟨"a.pdf", "GEMINI_API_KEY not set in environment", 1⟩] },
        savedProgress := [save_progress 2
          { (⟨[], [], none⟩ : ProgressData) with failed :=
              (⟨[], [], none⟩ : ProgressData).failed ++
                [⟨"a.pdf", "GEMINI_API_KEY not set in environment", 1⟩] }],
        savedRecord := none, rasterCalled := true, clientPages := [1],
        clock := 3 } := by
  have hk : listLookup MODELS "gemini-flash"
      = some (⟨"gemini-2.0-flash", "google", 2 / 1000⟩ : ModelConfig) := by
    simp [ MODELS, listLookup]
  refine ⟨hk, by decide, ?_⟩
  exact C2_missing_key_caught true (fun _ => TResult.success "t" "m" "g") "gemini-flash"
    ⟨"gemini-2.0-flash", "google", 2 / 1000⟩ 1 none false ⟨[], [], none⟩ 0 2 1 [2]
    ⟨"a.pdf", Except.ok 2⟩ hk rfl rfl rfl (by decide)

/-- C5: when resume is enabled and a document filename is present in the
completed set of the loaded Progress Store, the batch runner performs zero
rasterizer calls and zero transcription calls for that document, regardless
of the content of its completed entry. -/
theorem C5_resume_skip (env : EnvKeys) (api : String → Nat → TResult) (mk : String)
    (docs : List PdfDoc) (pages : Option String) (p0 : ProgressData) (t : RunTrace)
    (name : String) (pg : Nat)
    (hname : (listLookup p0.completed name).isSome = true)
    (hrun : transcribe env api mk docs pages true (some (Except.ok p0)) = .ran t) :
    ¬ name ∈ t.rasterCalls ∧ ¬ (name, pg) ∈ t.clientCalls := by
  obtain ⟨sp, ep, q0, hp, hl, ht⟩ := transcribe_ran_inv env api mk docs pages true
    (some (Except.ok p0)) t hrun
  have hq : q0 = p0 := by
    simp [load_progress] at hl
    exact hl.symm
  subst hq
  subst ht
  exact runDocs_no_touch env api mk sp ep name pg docs q0 0 hname

theorem C5_resume_skip_witness :
    ((listLookup
        (⟨[("a.pdf", ⟨0, 2, "gemini-flash"⟩)], [], none⟩ : ProgressData).completed
        "a.pdf").isSome = true) ∧
    (transcribe ⟨true, true⟩ (fun _ _ => TResult.success "x" "m" "g") "gemini-flash"
        [⟨"a.pdf", Except.ok 2⟩] none true
        (some (Except.ok ⟨[("a.pdf", ⟨0, 2, "gemini-flash"⟩)], [], none⟩))
      = RunResult.ran ⟨⟨[("a.pdf", ⟨0, 2, "gemini-flash"⟩)], [], none⟩, [], [], [], []⟩) ∧
    (¬ "a.pdf" ∈ (RunTrace.mk ⟨[("a.pdf", ⟨0, 2, "gemini-flash"⟩)], [], none⟩
        [] [] [] []).rasterCalls ∧
      ¬ ("a.pdf", 1) ∈ (RunTrace.mk ⟨[("a.pdf", ⟨0, 2, "gemini-flash"⟩)], [], none⟩
        [] [] [] []).clientCalls) :=
  ⟨by decide, by decide,
    C5_resume_skip ⟨true, true⟩ (fun _ _ => TResult.success "x" "m" "g") "gemini-flash"
      [⟨"a.pdf", Except.ok 2⟩] none ⟨[("a.pdf", ⟨0, 2, "gemini-flash"⟩)], [], none⟩
      ⟨⟨[("a.pdf", ⟨0, 2, "gemini-flash"⟩)], [], none⟩, [], [], [], []⟩ "a.pdf" 1
      (by decide) (by decide)⟩

/-- C6 counterexample: the page-range string `3-0` parses to the closed
range [3, 0], which by the claim selects no page at all; the code instead
treats a zero end bound as open-ended (Python falsiness of `0`) and
processes pages 3 through 10 of a 10-page document. -/
theorem C6_counterexample :
    (traceOf (transcribe ⟨true, true⟩ (fun _ _ => TResult.success "text" "m" "g")
        "gemini-flash" [⟨"d.pdf", Except.ok 10⟩] (some "3-0") false none)).records.map
      (fun r => (r.total_pages, r.pages_processed, r.pages.map (fun pr => pr.page_num)))
      = [(10, 8, [3, 4, 5, 6, 7, 8, 9, 10])] ∧
    (8 : Nat) ≠ 0 :=
  ⟨by decide, by decide⟩

/-- C6 amended: a page range `3-5` on a 10-page document processes exactly
pages 3, 4, 5 in page order with `pages_processed = 3` and
`total_pages = 10`; in general a closed range with end bound at least 1
selects exactly the pages with `start ≤ page_num ≤ end`, and an open-ended
range selects every page with `page_num ≥ start`; an end bound of 0 is
treated as open-ended, not as an empty closed range. -/
theorem C6_page_range (sp e n p : Nat) (he : 1 ≤ e) :
    ((traceOf (transcribe ⟨true, true⟩ (fun _ _ => TResult.success "text" "m" "g")
        "gemini-flash" [⟨"d.pdf", Except.ok 10⟩] (some "3-5") false none)).records.map
      (fun r => (r.total_pages, r.pages_processed, r.pages.map (fun pr => pr.page_num)))
      = [(10, 3, [3, 4, 5])]) ∧
    (p ∈ filterPages sp (some e) (List.range' 1 n) ↔ 1 ≤ p ∧ p ≤ n ∧ sp ≤ p ∧ p ≤ e) ∧
    (p ∈ filterPages sp none (List.range' 1 n) ↔ 1 ≤ p ∧ p ≤ n ∧ sp ≤ p) := by
  refine ⟨by decide, ?_, ?_⟩
  · have hne : e ≠ 0 := by omega
    simp only [filterPages, hne, ne_eq, not_false_eq_true, if_true, List.mem_filter,
      List.mem_range'_1, Bool.and_eq_true, decide_eq_true_eq]
    omega
  · simp only [filterPages, List.mem_filter, List.mem_range'_1, decide_eq_true_eq]
    omega

theorem C6_page_range_witness :
    (1 : Nat) ≤ 5 ∧
    ((traceOf (transcribe ⟨true, true⟩ (fun _ _ => TResult.success "text" "m" "g")
        "gemini-flash" [⟨"d.pdf", Except.ok 10⟩] (some "3-5") false none)).records.map
      (fun r => (r.total_pages, r.pages_processed, r.pages.map (fun pr => pr.page_num)))
      = [(10, 3, [3, 4, 5])]) ∧
    (4 ∈ filterPages 3 (some 5) (List.range' 1 10) ↔ 1 ≤ 4 ∧ 4 ≤ 10 ∧ 3 ≤ 4 ∧ 4 ≤ 5) ∧
    (4 ∈ filterPages 3 none (List.range' 1 10) ↔ 1 ≤ 4 ∧ 4 ≤ 10 ∧ 3 ≤ 4) :=
  ⟨by decide, C6_page_range 3 5 10 4 (by decide)⟩

theorem process_doc_completed_self (env : EnvKeys) (api : Nat → TResult) (mk : String)
    (sp : Nat) (ep : Option Nat) (r : Bool) (prog : ProgressData) (clock n : Nat)
    (d : PdfDoc) (prs : List PageResult) (cp : List Nat)
    (hskip : ((listLookup prog.completed d.name).isSome && r) = false)
    (hr : d.raster = Except.ok n)
    (hloop : pageLoop env api mk (filterPages sp ep (List.range' 1 n))
      = (Except.ok prs, cp)) :
    (listLookup (process_doc env api mk sp ep r prog clock d).progress.completed
      d.name).isSome = true := by
  unfold process_doc
  simp [hskip, hr, hloop, save_progress, listLookup_dictInsert_self]

/-- C7 counterexample: a rasterization fault whose exception text is the
empty string is recorded with an empty error string, not a non-empty one;
the rest of the claimed behavior (record appended, run continues, next
document completed) is visible in the same run. -/
theorem C7_counterexample :
    (traceOf (transcribe ⟨true, true⟩ (fun _ _ => TResult.success "text" "m" "g")
        "gemini-flash" [⟨"a.pdf", Except.error ""⟩, ⟨"b.pdf", Except.ok 1⟩]
        none true none)).finalProgress.failed
      = [⟨"a.pdf", "", 0⟩] ∧
    (listLookup (traceOf (transcribe ⟨true, true⟩
        (fun _ _ => TResult.success "text" "m" "g")
        "gemini-flash" [⟨"a.pdf", Except.error ""⟩, ⟨"b.pdf", Except.ok 1⟩]
        none true none)).finalProgress.completed "b.pdf").isSome = true :=
  ⟨by decide, by decide⟩

/-- C7 amended: when rasterization of a document raises with text `m`, the
batch runner appends a failure record carrying the document filename, the
fault text verbatim (non-empty exactly when the exception text is) and a
timestamp, persists the Progress Store as the next file write, and
continues with the remaining documents: a following document whose
processing succeeds (or is skipped as already completed) has a completed
entry at the end of the run. -/
theorem C7_fault_isolation (env : EnvKeys) (api : String → Nat → TResult) (mk : String)
    (sp : Nat) (ep : Option Nat) (r : Bool) (prog : ProgressData) (clock n : Nat)
    (d d2 : PdfDoc) (rest : List PdfDoc) (m : String) (prs : List PageResult)
    (cp : List Nat)
    (hskip : ((listLookup prog.completed d.name).isSome && r) = false)
    (hm : d.raster = Except.error m)
    (hd2r : d2.raster = Except.ok n)
    (hd2loop : pageLoop env (api d2.name) mk (filterPages sp ep (List.range' 1 n))
      = (Except.ok prs, cp)) :
    (⟨d.name, m, clock⟩ : FailRec)
        ∈ (runDocs env api mk sp ep r (d :: d2 :: rest) prog clock).finalProgress.failed ∧
    (runDocs env api mk sp ep r (d :: d2 :: rest) prog clock).fileWrites.head?
        = some (save_progress (clock + 1)
            { prog with failed := prog.failed ++ [⟨d.name, m, clock⟩] }) ∧
    (listLookup
        (runDocs env api mk sp ep r (d :: d2 :: rest) prog clock).finalProgress.completed
        d2.name).isSome = true := by
  have hpd : process_doc env (api d.name) mk sp ep r prog clock d =
      { progress := save_progress (clock + 1)
          { prog with failed := prog.failed ++ [⟨d.name, m, clock⟩] },
        savedProgress := [save_progress (clock + 1)
          { prog with failed := prog.failed ++ [⟨d.name, m, clock⟩] }],
        savedRecord := none, rasterCalled := true, clientPages := [],
        clock := clock + 2 } := by
    unfold process_doc
    simp [hskip, hm]
  have hw1 : (save_progress (clock + 1)
      { prog with failed := prog.failed ++ [⟨d.name, m, clock⟩] }).failed
      = prog.failed ++ [⟨d.name, m, clock⟩] := rfl
  have hmem1 : (⟨d.name, m, clock⟩ : FailRec) ∈ (save_progress (clock + 1)
      { prog with failed := prog.failed ++ [⟨d.name, m, clock⟩] }).failed := by
    rw [hw1]
    simp
  refine ⟨?_, ?_, ?_⟩
  · simp only [runDocs, hpd]
    exact runDocs_failed_mono env api mk sp ep r _ (d2 :: rest) _ _ hmem1
  · simp only [runDocs, hpd]
    rfl
  · simp only [runDocs, hpd]
    set w1 := save_progress (clock + 1)
      { prog with failed := prog.failed ++ [⟨d.name, m, clock⟩] } with hw1def
    by_cases hs2 : ((listLookup w1.completed d2.name).isSome && r) = true
    · have hsome : (listLookup w1.completed d2.name).isSome = true := by
        rcases Bool.and_eq_true _ _ |>.mp hs2 with ⟨h1, _⟩
        exact h1
      have := process_doc_lookup_mono env (api d2.name) mk sp ep r w1 (clock + 2)
        d2 d2.name hsome
      exact runDocs_lookup_mono env api mk sp ep r d2.name rest _ _ this
    · have hs2f : ((listLookup w1.completed d2.name).isSome && r) = false := by
        exact Bool.not_eq_true _ |>.mp hs2
      have hsome2 := process_doc_completed_self env (api d2.name) mk sp ep r w1
        (clock + 2) n d2 prs cp hs2f hd2r hd2loop
      exact runDocs_lookup_mono env api mk sp ep r d2.name rest _ _ hsome2

theorem C7_fault_isolation_witness :
    ((listLookup (⟨[], [], none⟩ : ProgressData).completed "a.pdf").isSome && true)
        = false ∧
    pageLoop ⟨true, true⟩ (fun _ => TResult.success "text" "m" "g") "gemini-flash"
        (filterPages 1 none (List.range' 1 1))
      = (Except.ok [⟨TResult.success "text" "m" "g", 1⟩], [1]) ∧
    ((⟨"a.pdf", "boom", 0⟩ : FailRec)
        ∈ (runDocs ⟨true, true⟩ (fun _ _ => TResult.success "text" "m" "g")
            "gemini-flash" 1 none true
            [⟨"a.pdf", Except.error "boom"⟩, ⟨"b.pdf", Except.ok 1⟩]
            ⟨[], [], none⟩ 0).finalProgress.failed ∧
      (runDocs ⟨true, true⟩ (fun _ _ => TResult.success "text" "m" "g")
          "gemini-flash" 1 none true
          [⟨"a.pdf", Except.error "boom"⟩, ⟨"b.pdf", Except.ok 1⟩]
          ⟨[], [], none⟩ 0).fileWrites.head?
        = some (save_progress 1
            { (⟨[], [], none⟩ : ProgressData) with failed :=
                (⟨[], [], none⟩ : ProgressData).failed ++ [⟨"a.pdf", "boom", 0⟩] }) ∧
      (listLookup (runDocs ⟨true, true⟩ (fun _ _ => TResult.success "text" "m" "g")
          "gemini-flash" 1 none true
          [⟨"a.pdf", Except.error "boom"⟩, ⟨"b.pdf", Except.ok 1⟩]
          ⟨[], [], none⟩ 0).finalProgress.completed "b.pdf").isSome = true) :=
  ⟨by decide, rfl,
    C7_fault_isolation ⟨true, true⟩ (fun _ _ => TResult.success "text" "m" "g")
      "gemini-flash" 1 none true ⟨[], [], none⟩ 0 1 ⟨"a.pdf", Except.error "boom"⟩
      ⟨"b.pdf", Except.ok 1⟩ [] "boom" [⟨TResult.success "text" "m" "g", 1⟩] [1]
      (by decide) rfl rfl rfl⟩

/-- C9: with resume disabled the run starts from a fresh in-memory progress
state, so every file write of the run holds only completed and failed
entries for documents of the current run — all entries recorded by earlier
runs are absent from the first write on; with resume enabled every file
write preserves the loaded completed entry of any document that is not part
of the current run. -/
theorem C9_progress_overwrite (env : EnvKeys) (api : String → Nat → TResult) (mk : String)
    (docs : List PdfDoc) (pages : Option String)
    (fs : Option (Except String ProgressData)) (p0 : ProgressData) (name : String)
    (t0 t1 : RunTrace) (w0 w1 : ProgressData) (kv : String × ProgressEntry) (f : FailRec)
    (h0 : transcribe env api mk docs pages false fs = .ran t0)
    (hw0 : w0 ∈ t0.fileWrites)
    (hkv : kv ∈ w0.completed)
    (hf : f ∈ w0.failed)
    (h1 : transcribe env api mk docs pages true (some (Except.ok p0)) = .ran t1)
    (hw1 : w1 ∈ t1.fileWrites)
    (hname : ¬ name ∈ docs.map PdfDoc.name) :
    kv.1 ∈ docs.map PdfDoc.name ∧ f.file ∈ docs.map PdfDoc.name ∧
    listLookup w1.completed name = listLookup p0.completed name := by
  obtain ⟨sp0, ep0, q0, hp0, hl0, ht0⟩ := transcribe_ran_inv env api mk docs pages false
    fs t0 h0
  have hq0 : q0 = (⟨[], [], none⟩ : ProgressData) := by
    simp at hl0
    exact hl0.symm
  subst ht0
  subst hq0
  obtain ⟨sp1, ep1, q1, hp1, hl1, ht1⟩ := transcribe_ran_inv env api mk docs pages true
    (some (Except.ok p0)) t1 h1
  have hq1 : q1 = p0 := by
    simp [load_progress] at hl1
    exact hl1.symm
  subst ht1
  subst hq1
  refine ⟨?_, ?_, ?_⟩
  · rcases runDocs_completed_sub env api mk sp0 ep0 false kv docs _ 0 w0 hw0 hkv with h | h
    · simp at h
    · exact h
  · rcases runDocs_failed_sub env api mk sp0 ep0 false f docs _ 0 w0 hw0 hf with h | h
    · simp at h
    · exact h
  · exact runDocs_lookup_ne env api mk sp1 ep1 true name docs q1 0 w1 hname hw1

theorem C9_progress_overwrite_witness :
    (transcribe ⟨true, true⟩ (fun _ _ => TResult.success "text" "m" "google")
        "gemini-flash" [⟨"a.pdf", Except.error "x"⟩, ⟨"b.pdf", Except.ok 1⟩] none false none
      = RunResult.ran
          ⟨⟨[("b.pdf", ⟨3, 1, "gemini-flash"⟩)], [⟨"a.pdf", "x", 0⟩], some 4⟩,
            [⟨[], [⟨"a.pdf", "x", 0⟩], some 1⟩,
              ⟨[("b.pdf", ⟨3, 1, "gemini-flash"⟩)], [⟨"a.pdf", "x", 0⟩], some 4⟩],
            [⟨"b.pdf", 1, 1, "gemini-flash", 2, [⟨TResult.success "text" "m" "google", 1⟩]⟩],
            ["a.pdf", "b.pdf"], [("b.pdf", 1)]⟩) ∧
    (transcribe ⟨true, true⟩ (fun _ _ => TResult.success "text" "m" "google")
        "gemini-flash" [⟨"a.pdf", Except.error "x"⟩, ⟨"b.pdf", Except.ok 1⟩] none true
        (some (Except.ok ⟨[("z.pdf", ⟨9, 9, "m"⟩)], [], none⟩))
      = RunResult.ran
          ⟨⟨[("z.pdf", ⟨9, 9, "m"⟩), ("b.pdf", ⟨3, 1, "gemini-flash"⟩)],
              [⟨"a.pdf", "x", 0⟩], some 4⟩,
            [⟨[("z.pdf", ⟨9, 9, "m"⟩)], [⟨"a.pdf", "x", 0⟩], some 1⟩,
              ⟨[("z.pdf", ⟨9, 9, "m"⟩), ("b.pdf", ⟨3, 1, "gemini-flash"⟩)],
                [⟨"a.pdf", "x", 0⟩], some 4⟩],
            [⟨"b.pdf", 1, 1, "gemini-flash", 2, [⟨TResult.success "text" "m" "google", 1⟩]⟩],
            ["a.pdf", "b.pdf"], [("b.pdf", 1)]⟩) ∧
    (¬ "z.pdf" ∈ ([⟨"a.pdf", Except.error "x"⟩, ⟨"b.pdf", Except.ok 1⟩] :
        List PdfDoc).map PdfDoc.name) ∧
    (("b.pdf", (⟨3, 1, "gemini-flash"⟩ : ProgressEntry)).1
        ∈ ([⟨"a.pdf", Except.error "x"⟩, ⟨"b.pdf", Except.ok 1⟩] :
            List PdfDoc).map PdfDoc.name ∧
      (⟨"a.pdf", "x", 0⟩ : FailRec).file
        ∈ ([⟨"a.pdf", Except.error "x"⟩, ⟨"b.pdf", Except.ok 1⟩] :
            List PdfDoc).map PdfDoc.name ∧
      listLookup (⟨[("z.pdf", ⟨9, 9, "m"⟩)], [⟨"a.pdf", "x", 0⟩], some 1⟩ :
          ProgressData).completed "z.pdf"
        = listLookup (⟨[("z.pdf", ⟨9, 9, "m"⟩)], [], none⟩ : ProgressData).completed
            "z.pdf") :=
  ⟨by decide, by decide, by decide,
    C9_progress_overwrite ⟨true, true⟩ (fun _ _ => TResult.success "text" "m" "google")
      "gemini-flash" [⟨"a.pdf", Except.error "x"⟩, ⟨"b.pdf", Except.ok 1⟩] none none
      ⟨[("z.pdf", ⟨9, 9, "m"⟩)], [], none⟩ "z.pdf"
      ⟨⟨[("b.pdf", ⟨3, 1, "gemini-flash"⟩)], [⟨"a.pdf", "x", 0⟩], some 4⟩,
        [⟨[], [⟨"a.pdf", "x", 0⟩], some 1⟩,
          ⟨[("b.pdf", ⟨3, 1, "gemini-flash"⟩)], [⟨"a.pdf", "x", 0⟩], some 4⟩],
        [⟨"b.pdf", 1, 1, "gemini-flash", 2, [⟨TResult.success "text" "m" "google", 1⟩]⟩],
        ["a.pdf", "b.pdf"], [("b.pdf", 1)]⟩
      ⟨⟨[("z.pdf", ⟨9, 9, "m"⟩), ("b.pdf", ⟨3, 1, "gemini-flash"⟩)],
          [⟨"a.pdf", "x", 0⟩], some 4⟩,
        [⟨[("z.pdf", ⟨9, 9, "m"⟩)], [⟨"a.pdf", "x", 0⟩], some 1⟩,
          ⟨[("z.pdf", ⟨9, 9, "m"⟩), ("b.pdf", ⟨3, 1, "gemini-flash"⟩)],
            [⟨"a.pdf", "x", 0⟩], some 4⟩],
        [⟨"b.pdf", 1, 1, "gemini-flash", 2, [⟨TResult.success "text" "m" "google", 1⟩]⟩],
        ["a.pdf", "b.pdf"], [("b.pdf", 1)]⟩
      ⟨[("b.pdf", ⟨3, 1, "gemini-flash"⟩)], [⟨"a.pdf", "x", 0⟩], some 4⟩
      ⟨[("z.pdf", ⟨9, 9, "m"⟩)], [⟨"a.pdf", "x", 0⟩], some 1⟩
      ("b.pdf", ⟨3, 1, "gemini-flash"⟩) ⟨"a.pdf", "x", 0⟩
      (by decide) (by decide) (by decide) (by decide) (by decide) (by decide) (by decide)⟩
